import Mathlib

/-!
# jasco: request context, body caching, rendering and path parameters

A shallow embedding of `context.go` and `params.go`.  Go values become Lean
values, pointer receivers become explicit state passing (`Context → … × Context`),
and everything the package reaches through the standard library or its router
(`json.Marshal`, `json.Unmarshal`, `ioutil.ReadAll`, `strconv.ParseUint`,
`fmt.Sprintf`, the response writer, the request stream) is modelled next to the
function that uses it.
-/

set_option maxRecDepth 8000

namespace Jasco

/-! ## Bytes, strings and Go errors -/

/-- One octet. Go strings and `[]byte` are sequences of these. -/
abbrev Byte := Fin 256

/-- The bytes of an ASCII literal, as in `[]byte("...")`. -/
def bytesOf (s : String) : List Byte :=
  s.data.map (fun ch => Fin.ofNat ch.toNat)

/-- Values of Go's `error` interface: the sentinel `io.EOF`, which the code
compares against by identity, and every other error, kept by its message. -/
inductive GoError where
  | EOF
  | other (msg : String)
  deriving DecidableEq, Repr

/-! ## The Error value (error.go) -/

/-- Modelled from the spec: the `Error` struct of `error.go`, which is not among
the sources at hand.  The spec lists a stable code, a human message, the HTTP
status, an optional wrapped cause (`Err` in `context_test.go`) and a request id
that is absent until it is attached right before rendering. -/
structure Error where
  Code : String
  Message : String
  Status : Int
  Err : Option GoError
  RequestID : Option Nat
  deriving DecidableEq, Repr

/-- Modelled from the spec: the constructor `NewError(code, message, status, err)`
of `error.go`; argument order as at its call sites in `context.go`.  No request
id is present on a new value. -/
def NewError (code message : String) (status : Int) (err : Option GoError) : Error :=
  { Code := code, Message := message, Status := status, Err := err, RequestID := none }

/-- Modelled from the spec: the setter `(*Error).SetRequestID` of `error.go`,
which attaches the request id and touches nothing else. -/
def Error.SetRequestID (e : Error) (id : Nat) : Error :=
  { e with RequestID := some id }

/-- Status constants of `net/http` used by the package. -/
def StatusOK : Int := 200
def StatusBadRequest : Int := 400
def StatusNotFound : Int := 404
def StatusInternalServerError : Int := 500

/-! ## Request body streams -/

/-- An `io.ReadCloser`.  `script` lists what the remaining `Read` calls return
(a chunk of bytes and an optional error); once it is used up every `Read`
returns `(0, io.EOF)`.  `reads` counts the `Read` calls served so far and
`closed` records that `Close` was called. -/
structure Stream where
  script : List (List Byte × Option GoError)
  reads : Nat
  closed : Bool
  deriving DecidableEq, Repr

/-- One `Read` call: the chunk delivered, the error, and the stream afterwards. -/
def Stream.Read (s : Stream) : (List Byte × Option GoError) × Stream :=
  match s.script with
  | [] => (([], some GoError.EOF), { s with reads := s.reads + 1 })
  | r :: rest => (r, { s with script := rest, reads := s.reads + 1 })

/-- The method `Close`. -/
def Stream.Close (s : Stream) : Stream :=
  { s with closed := true }

/-- The stream `ioutil.NopCloser(bytes.NewReader(b))`: a fresh in-memory reader
positioned at the start of `b` (a nil slice reads as empty). -/
def NewReader (b : Option (List Byte)) : Stream :=
  { script := match b with
      | none => []
      | some [] => []
      | some (x :: xs) => [(x :: xs, none)],
    reads := 0,
    closed := false }

/-- The read loop of `ioutil.ReadAll` (`bytes.Buffer.ReadFrom`): append what each
`Read` delivers; `io.EOF` ends the loop without an error, any other error ends
it and is returned.  `fuel` bounds the number of `Read` calls. -/
def readFrom : Nat → Stream → List Byte → (List Byte × Option GoError) × Stream
  | 0, s, buf => ((buf, some (GoError.other "bytes.Buffer: too large")), s)
  | fuel + 1, s, buf =>
    match s.Read with
    | ((chunk, some GoError.EOF), s1) => ((buf ++ chunk, none), s1)
    | ((chunk, some e), s1) => ((buf ++ chunk, some e), s1)
    | ((chunk, none), s1) => readFrom fuel s1 (buf ++ chunk)

/-- The slice a Go function hands back for the bytes `data`.  `nilWhenEmpty`
says whether no data is reported as the nil slice or as an empty non-nil one;
the docstring of `Body` leaves both open ("could be nil"). -/
def mkSlice (nilWhenEmpty : Bool) (data : List Byte) : Option (List Byte) :=
  if nilWhenEmpty && data.isEmpty then none else some data

/-- The call `ioutil.ReadAll(r)`.  A script of `n` entries is drained by at most
`n + 1` reads, so that much fuel is always enough (`readFrom_fuel`). -/
def ReadAll (nilWhenEmpty : Bool) (s : Stream) :
    (Option (List Byte) × Option GoError) × Stream :=
  match readFrom (s.script.length + 1) s [] with
  | ((data, err), s1) => ((mkSlice nilWhenEmpty data, err), s1)

/-- The contents of a slice; nil has none. -/
def sliceBytes (b : Option (List Byte)) : List Byte := b.getD []

/-! ## Logging (logrus) -/

/-- A value stored under a log field (`interface{}` in `logrus.Fields`). -/
inductive LogValue where
  | num (n : Int)
  | text (s : List Byte)
  | err (e : GoError)
  deriving DecidableEq, Repr

/-- The map `logrus.Fields`, as an association list with one entry per key. -/
abbrev Fields := List (String × LogValue)

/-- Assignment `f[key] = value`. -/
def Fields.set (f : Fields) (key : String) (value : LogValue) : Fields :=
  (key, value) :: f.filter (fun p => p.1 != key)

/-- The statement `delete(f, key)`. -/
def Fields.delete (f : Fields) (key : String) : Fields :=
  f.filter (fun p => p.1 != key)

/-- What `Entry.WithFields` builds: the entry's fields, overridden by the new
ones. -/
def Fields.merge (f new : Fields) : Fields :=
  new.foldl (fun acc p => Fields.set acc p.1 p.2) f

/-- A line handed to the logging backend. -/
structure LogEntry where
  level : String
  msg : String
  data : Fields
  deriving DecidableEq, Repr

/-! ## Response writer and request -/

/-- The response sink `web.ResponseWriter`, as the record of the calls made on
it: the header map, the status lines passed to `WriteHeader` and the byte
slices passed to `Write`, oldest first.  `writeErr` is what `Write` returns. -/
structure ResponseWriter where
  header : List (String × String)
  statusLines : List Int
  writes : List (List Byte)
  writeErr : Option GoError
  deriving DecidableEq, Repr

/-- The call `rw.Header().Set(key, value)`. -/
def ResponseWriter.HeaderSet (rw : ResponseWriter) (key value : String) : ResponseWriter :=
  { rw with header := (key, value) :: rw.header.filter (fun p => p.1 != key) }

/-- The call `rw.Header().Get(key)`. -/
def ResponseWriter.HeaderGet (rw : ResponseWriter) (key : String) : Option String :=
  (rw.header.find? (fun p => p.1 == key)).map (fun p => p.2)

/-- The call `rw.WriteHeader(status)`. -/
def ResponseWriter.WriteHeader (rw : ResponseWriter) (status : Int) : ResponseWriter :=
  { rw with statusLines := rw.statusLines ++ [status] }

/-- The call `rw.Write(data)`: its error and the writer afterwards. -/
def ResponseWriter.Write (rw : ResponseWriter) (data : List Byte) :
    Option GoError × ResponseWriter :=
  (rw.writeErr, { rw with writes := rw.writes ++ [data] })

/-- The request `web.Request`: method, request URI, the body stream currently
attached and the path parameters extracted by the router. -/
structure Request where
  Method : List Byte
  RequestURI : List Byte
  Body : Stream
  PathParams : List Byte → Option (List Byte)

/-! ## Context -/

/-- The struct `Context`.  `logged` is what has been emitted through `logger`;
`released` lists the streams that were attached to the request and have been
replaced, oldest first (they stay what they were when they were replaced: the
package keeps no reference to them). -/
structure Context where
  body : Option (List Byte)
  bodyError : Option Error
  requestID : Nat
  response : ResponseWriter
  request : Request
  httpStatus : Int
  logFields : Fields
  logged : List LogEntry
  released : List Stream

/-- What `render` is given as `v interface{}`: a value chosen by the handler, or
the map `{"error": e}` built by `RenderError`. -/
inductive Payload (α : Type) where
  | value (v : α)
  | errorEnvelope (e : Error)

/-- Everything the package takes from outside `context.go`: the two error-code
constants of `error.go`, the JSON encoder and decoder, how `ioutil.ReadAll`
reports no data, and `runtime.Caller` (file and line for a stack depth). -/
structure Env (α δ : Type) where
  requestBodyParseErrorCode : String
  requestURLNotFoundErrorCode : String
  jsonMarshal : Payload α → Except GoError (List Byte)
  jsonUnmarshal : List Byte → Except GoError δ
  readAllNil : Bool
  runtimeCaller : Nat → Option (List Byte × Int)

section Operations

variable {α δ : Type}

/-- The method `AddLogField`. -/
def Context.AddLogField (c : Context) (key : String) (value : LogValue) : Context :=
  { c with logFields := c.logFields.set key value }

/-- The method `RemoveLogField`. -/
def Context.RemoveLogField (c : Context) (key : String) : Context :=
  { c with logFields := c.logFields.delete key }

/-- The method `SetHTTPStatus`. -/
def Context.SetHTTPStatus (c : Context) (s : Int) : Context :=
  { c with httpStatus := s }

/-- The method `RequestID`. -/
def Context.RequestID (c : Context) : Nat := c.requestID

/-- The function `filepath.Base` with `/` as the separator: the last element of
the path, trailing separators dropped; `.` for the empty path and `/` for a path
of separators only. -/
def filepathBase (path : List Byte) : List Byte :=
  if path.isEmpty then [(46 : Byte)]
  else
    let stripped := (path.reverse.dropWhile (fun b => b == (47 : Byte))).reverse
    if stripped.isEmpty then [(47 : Byte)]
    else (stripped.reverse.takeWhile (fun b => b != (47 : Byte))).reverse

/-- The method `CLog`: the fields of the entry it returns. -/
def Context.CLog (env : Env α δ) (c : Context) (callerDepth : Nat) : Fields :=
  match env.runtimeCaller (callerDepth + 1) with
  | none => Fields.set [] "reqid" (LogValue.num c.requestID)
  | some (file, line) =>
    let file := filepathBase file
    Fields.merge [("file", LogValue.text file), ("line", LogValue.num line)] c.logFields

/-- The method `Log`. -/
def Context.Log (env : Env α δ) (c : Context) : Fields := c.CLog env 1

/-- The method `ErrLog`. -/
def Context.ErrLog (env : Env α δ) (c : Context) (err : GoError) : Fields :=
  Fields.set (c.CLog env 1) "err" (LogValue.err err)

/-- Emitting an entry through `c.logger` (`Entry.Error`, `Entry.Info`). -/
def Context.emit (c : Context) (level : String) (data : Fields) (msg : String) : Context :=
  { c with logged := c.logged ++ [{ level := level, msg := msg, data := data }] }

/-- The literal written when marshalling fails. -/
def internalErrorBody : String :=
  "\x7b\"error\":\x7b\"code\":\"J0002\",\"message\":\"Internal server error.\"\x7d\x7d"

/-- The method `render`. -/
def Context.render (env : Env α δ) (c : Context) (status : Int) (v : Payload α) : Context :=
  let c := { c with httpStatus := status }
  match env.jsonMarshal v with
  | Except.error err =>
    let c := c.emit "error" (c.ErrLog env err) "Cannot marshal json"
    let c := { c with httpStatus := StatusInternalServerError }
    let c := { c with response := c.response.HeaderSet "Content-Type" "application/json" }
    let c := { c with response := c.response.WriteHeader c.httpStatus }
    { c with response := (c.response.Write (bytesOf internalErrorBody)).2 }
  | Except.ok data =>
    let c := { c with response := c.response.HeaderSet "Content-Type" "application/json" }
    let c := { c with response := c.response.WriteHeader status }
    match c.response.Write data with
    | (some err, rw) =>
      let c := { c with response := rw }
      c.emit "error" (c.ErrLog env err) "Cannot write a response"
    | (none, rw) => { c with response := rw }

/-- The method `Render`. -/
def Context.Render (env : Env α δ) (c : Context) (v : α) : Context :=
  c.render env StatusOK (Payload.value v)

/-- The method `RenderRaw`. -/
def Context.RenderRaw (env : Env α δ) (c : Context) (status : Int) (v : α) : Context :=
  c.render env status (Payload.value v)

/-- A `*Error` in a handler's hands.  `cached` is the pointer the context keeps
in `bodyError`: the one `Body` returns, and `ParseBody` when reading failed (nil
while no error is cached).  `fresh e` points to an Error the context keeps no
pointer to, such as the ones `ParseBody` and `NotFoundHandler` build. -/
inductive ErrorPtr where
  | cached
  | fresh (e : Error)
  deriving DecidableEq, Repr

/-- Reading through a `*Error`: the Error it points to, `none` for nil. -/
def Context.load (c : Context) : ErrorPtr → Option Error
  | ErrorPtr.cached => c.bodyError
  | ErrorPtr.fresh e => some e

/-- Writing through a `*Error`: a write through the cached pointer changes the
Error the context holds. -/
def Context.store (c : Context) (p : ErrorPtr) (e : Error) : Context :=
  match p with
  | ErrorPtr.cached => { c with bodyError := some e }
  | ErrorPtr.fresh _ => c

/-- The method `RenderError`, called with the pointer `p`: the Error `p` points to
after the call, and the context afterwards.  `none` stands for the panic on a
nil pointer, before anything is rendered. -/
def Context.RenderError (env : Env α δ) (c : Context) (p : ErrorPtr) :
    Option (Error × Context) :=
  match c.load p with
  | none => none
  | some e =>
    let e := e.SetRequestID c.requestID
    let c := c.store p e
    some (e, c.render env e.Status (Payload.errorEnvelope e))

/-- The method `NotFoundHandler`; the pointer it passes is not nil, so
`RenderError` returns. -/
def Context.NotFoundHandler (env : Env α δ) (c : Context) : Context :=
  match c.RenderError env (ErrorPtr.fresh (NewError env.requestURLNotFoundErrorCode
    "The request URL was not found." StatusNotFound none)) with
  | some (_, c1) => c1
  | none => c

/-- The method `Body`: the pair it returns, and the context afterwards. -/
def Context.Body (env : Env α δ) (c : Context) :
    (Option (List Byte) × Option Error) × Context :=
  if c.body.isSome || c.bodyError.isSome then
    ((c.body, c.bodyError), c)
  else
    match ReadAll env.readAllNil c.request.Body with
    | ((body, err), drained) =>
      let bodyError : Option Error :=
        match err with
        | some e =>
          if e ≠ GoError.EOF then
            some (NewError env.requestBodyParseErrorCode
              "Cannot read the request body" StatusBadRequest (some e))
          else c.bodyError
        | none => c.bodyError
      let c := { c with bodyError := bodyError }
      let c := { c with released := c.released ++ [drained.Close] }
      let c := { c with request := { c.request with Body := NewReader body } }
      let c := { c with body := body }
      ((c.body, c.bodyError), c)

/-- The method `ParseBody`: the error it returns, what was decoded into the
destination (if decoding was reached and succeeded), and the context afterwards. -/
def Context.ParseBody (env : Env α δ) (c : Context) : (Option Error × Option δ) × Context :=
  match c.Body env with
  | ((_, some err), c1) => ((some err, none), c1)
  | ((body, none), c1) =>
    match env.jsonUnmarshal (sliceBytes body) with
    | Except.error err =>
      ((some (NewError env.requestBodyParseErrorCode
        "Cannot parse the request body as JSON." StatusBadRequest (some err)), none), c1)
    | Except.ok d => ((none, some d), c1)

/-! ### Formatting the elapsed time (`fmt.Sprintf("%d.%03d", …)`) -/

/-- Conversion to a signed integer of `w` bits (two's complement wrap-around). -/
def wrapSigned (w : Nat) (x : Int) : Int :=
  (x + 2 ^ (w - 1)) % 2 ^ w - 2 ^ (w - 1)

/-- The conversion `int(x)`; `int` is taken to be 64 bits wide. -/
def goInt (x : Int) : Int := wrapSigned 64 x

/-- The constants `time.Second` and `time.Millisecond`, in nanoseconds. -/
def Second : Int := 1000000000
def Millisecond : Int := 1000000

/-- The digit loop of `fmt`'s integer formatting in base 10: peel off the last
digit while `u >= 10`, then store the leading one.  `fuel` is the room in the
buffer. -/
def fmtDigits : Nat → Nat → List Byte → List Byte
  | 0, u, buf => Fin.ofNat (48 + u) :: buf
  | fuel + 1, u, buf =>
    if 10 ≤ u then fmtDigits fuel (u / 10) (Fin.ofNat (48 + (u - u / 10 * 10)) :: buf)
    else Fin.ofNat (48 + u) :: buf

/-- The verb `%d` applied to a signed 64-bit value, with the zero flag and width
`wid` when `wid > 0` (so `%03d` is `fmtInteger v 3`, `%d` is `fmtInteger v 0`):
the digits of the magnitude, zeros in front up to the width (one less when a
sign is written), then the sign. -/
def fmtInteger (v : Int) (wid : Nat) : List Byte :=
  let negative := decide (v < 0)
  let u := v.natAbs
  let prec := if negative then wid - 1 else wid
  let digits := fmtDigits 19 u []
  let padded := List.replicate (prec - digits.length) (48 : Byte) ++ digits
  if negative then (45 : Byte) :: padded else padded

/-- The value `fmt.Sprintf("%d.%03d", a, b)`. -/
def sprintfReqtime (a b : Int) : List Byte :=
  fmtInteger a 0 ++ [(46 : Byte)] ++ fmtInteger b 3

/-- The field `reqtime` of the access log for an elapsed `time.Duration`
(nanoseconds); Go's `/` and `%` truncate toward zero. -/
def reqtime (elapsed : Int) : List Byte :=
  sprintfReqtime (goInt (elapsed.tdiv Second))
    (goInt ((elapsed.tmod Second).tdiv Millisecond))

/-! ### Request set-up -/

/-- The call `atomic.AddUint64(&requestIDCounter, 1)` on a counter holding
`counter`: the new value, which is also what the call returns. -/
def addUint64 (counter : Nat) (delta : Nat) : Nat := (counter + delta) % 2 ^ 64

/-- The first statements of `setUpContext`, up to the start of the timer: the
counter afterwards and the context as the handler will receive it. -/
def Context.setUp (c : Context) (counter : Nat) (rw : ResponseWriter) (req : Request) :
    Nat × Context :=
  let counter := addUint64 counter 1
  let c := { c with requestID := counter }
  let c := { c with response := rw }
  let c := { c with request := req }
  let c := { c with logFields := [("reqid", LogValue.num c.requestID)] }
  (counter, c)

/-- The method `setUpContext`.  `counter` is the package variable
`requestIDCounter`, `next` the rest of the middleware chain acting on this
context, and `elapsed` the duration the deferred function measures. -/
def Context.setUpContext (c : Context) (counter : Nat) (rw : ResponseWriter)
    (req : Request) (next : Context → Context) (elapsed : Int) : Nat × Context :=
  match c.setUp counter rw req with
  | (counter, c) =>
    let c := next c
    (counter, c.emit "info"
      [("reqid", LogValue.num c.requestID),
       ("reqtime", LogValue.text (reqtime elapsed)),
       ("method", LogValue.text req.Method),
       ("uri", LogValue.text req.RequestURI),
       ("status", LogValue.num c.httpStatus)] "Access")

/-- One inbound request as the router dispatches it: the zero-valued context it
allocates, the writer and request it passes, the handler chain and the time the
request will take. -/
structure Arrival where
  c : Context
  rw : ResponseWriter
  req : Request
  next : Context → Context
  elapsed : Int

/-- The request ids handed out when the arrivals are set up one after the other
(the order of their atomic increments), starting with the counter at `counter`. -/
def assignedIDs : Nat → List Arrival → List Nat
  | _, [] => []
  | counter, a :: rest =>
    (a.c.setUp counter a.rw a.req).2.RequestID ::
      assignedIDs (a.c.setUpContext counter a.rw a.req a.next a.elapsed).1 rest

/-! ### A handler as a sequence of calls on the context -/

/-- The calls a handler can make on its context. -/
inductive Op (α : Type) where
  | SetHTTPStatus (s : Int)
  | AddLogField (key : String) (value : LogValue)
  | RemoveLogField (key : String)
  | Render (v : α)
  | RenderRaw (status : Int) (v : α)
  | RenderError (p : ErrorPtr)
  | NotFoundHandler
  | Body
  | ParseBody

/-- Performing one call: the context afterwards, `none` when the call panics. -/
def Context.step (env : Env α δ) (c : Context) : Op α → Option Context
  | Op.SetHTTPStatus s => some (c.SetHTTPStatus s)
  | Op.AddLogField key value => some (c.AddLogField key value)
  | Op.RemoveLogField key => some (c.RemoveLogField key)
  | Op.Render v => some (c.Render env v)
  | Op.RenderRaw status v => some (c.RenderRaw env status v)
  | Op.RenderError p => (c.RenderError env p).map (fun r => r.2)
  | Op.NotFoundHandler => some (c.NotFoundHandler env)
  | Op.Body => some (c.Body env).2
  | Op.ParseBody => some (c.ParseBody env).2

/-- Performing a sequence of calls, first to last; a call that panics ends the
handler, and the calls after it are not made. -/
def Context.run (env : Env α δ) (c : Context) : List (Op α) → Context
  | [] => c
  | op :: ops =>
    match c.step env op with
    | none => c
    | some c1 => Context.run env c1 ops

/-- Every stream that is or was attached to the request, in the order of
attachment; the last one is the one attached now. -/
def Context.streams (c : Context) : List Stream := c.released ++ [c.request.Body]

/-- Calling `Body` `n` times in a row: the context afterwards. -/
def Context.bodyTimes (env : Env α δ) (c : Context) : Nat → Context
  | 0 => c
  | n + 1 => Context.bodyTimes env (c.Body env).2 n

end Operations

/-! ## Path parameters (params.go) -/

/-- Errors of `strconv`: `ErrSyntax` and `ErrRange`. -/
def ErrSyntax : GoError := GoError.other "invalid syntax"
def ErrRange : GoError := GoError.other "value out of range"

/-- The helper `lower` of `strconv`: `c | ('x' - 'X')`. -/
def lower (c : Nat) : Nat := c ||| 32

/-- The digit loop of `strconv.ParseUint`, with `n` the value accumulated so far
in a `uint64`. -/
def parseUintLoop (base cutoff maxVal : Nat) : List Byte → Nat → Nat × Option GoError
  | [], n => (n, none)
  | c :: cs, n =>
    let digit : Option Nat :=
      if 48 ≤ c.val ∧ c.val ≤ 57 then some (c.val - 48)
      else if 97 ≤ lower c.val ∧ lower c.val ≤ 122 then some (lower c.val - 97 + 10)
      else none
    match digit with
    | none => (0, some ErrSyntax)
    | some d =>
      if base ≤ d then (0, some ErrSyntax)
      else if cutoff ≤ n then (maxVal, some ErrRange)
      else
        let n0 := n * base % 2 ^ 64
        let n1 := (n0 + d) % 2 ^ 64
        if n1 < n0 ∨ maxVal < n1 then (maxVal, some ErrRange)
        else parseUintLoop base cutoff maxVal cs n1

/-- The function `strconv.ParseUint(s, base, bitSize)` for an explicit base
`2 ≤ base ≤ 36`.  Base 0 (base taken from a literal's leading characters), which the
package never passes, is reported like any other base outside that range. -/
def ParseUint (s : List Byte) (base bitSize : Nat) : Nat × Option GoError :=
  if s.isEmpty then (0, some ErrSyntax)
  else if ¬ (2 ≤ base ∧ base ≤ 36) then (0, some (GoError.other "invalid base"))
  else if 64 < bitSize then (0, some (GoError.other "invalid bit size"))
  else
    let bitSize := if bitSize = 0 then 64 else bitSize
    let cutoff := (2 ^ 64 - 1) / base + 1
    let maxVal := (2 ^ bitSize % 2 ^ 64 + 2 ^ 64 - 1) % 2 ^ 64
    parseUintLoop base cutoff maxVal s 0

/-- The struct `PathParams`. -/
structure PathParams where
  req : Request

/-- The method `Context.PathParams`. -/
def Context.PathParams (c : Context) : PathParams := { req := c.request }

/-- The method `PathParams.String`. -/
def PathParams.String (p : PathParams) (key defaultValue : List Byte) : List Byte :=
  match p.req.PathParams key with
  | none => defaultValue
  | some s => s

/-- The method `PathParams.RequiredString`. -/
def PathParams.RequiredString (p : PathParams) (key : List Byte) :
    List Byte × Option GoError :=
  match p.req.PathParams key with
  | none => ([], some (GoError.other
      ("path parameter \x27" ++ String.mk (key.map (fun b => Char.ofNat b.val)) ++
        "\x27 doesn\x27t exist")))
  | some s => (s, none)

/-- The method `PathParams.Int`. -/
def PathParams.Int (p : PathParams) (key : List Byte) (defaultValue : Nat) :
    Nat × Option GoError :=
  match p.RequiredString key with
  | (_, some _) => (defaultValue, none)
  | (s, none) => ParseUint s 10 63

/-- The method `PathParams.RequiredInt`. -/
def PathParams.RequiredInt (p : PathParams) (key : List Byte) : Nat × Option GoError :=
  match p.RequiredString key with
  | (_, some err) => (0, some err)
  | (s, none) => ParseUint s 10 63

/-! ## A small concrete environment

Used to evaluate the definitions on concrete inputs. -/

/-- Two kinds of handler values: a text, which `json.Marshal` encodes as a JSON
string, and a channel, which it rejects with an `UnsupportedTypeError`. -/
inductive Sample where
  | text (s : String)
  | channel
  deriving DecidableEq, Repr

/-- The encoder on these values and on error envelopes; the envelope carries the
code, the message and the request id as a decimal string (empty while no id is
attached). -/
def sampleMarshal : Payload Sample → Except GoError (List Byte)
  | Payload.value (Sample.text s) => Except.ok (bytesOf ("\"" ++ s ++ "\""))
  | Payload.value Sample.channel => Except.error (GoError.other "json: unsupported type: chan int")
  | Payload.errorEnvelope e =>
    Except.ok (bytesOf ("\x7b\"error\":\x7b\"code\":\"" ++ e.Code ++ "\",\"message\":\"" ++
        e.Message ++ "\",\"request_id\":\"") ++
      (match e.RequestID with
       | none => []
       | some id => fmtInteger id 0) ++
      bytesOf "\"\x7d\x7d")

/-- The decoder into a `*bool` destination: the two JSON booleans decode, every
other input is an error. -/
def sampleUnmarshal (b : List Byte) : Except GoError Bool :=
  if b = bytesOf "true" then Except.ok true
  else if b = bytesOf "false" then Except.ok false
  else Except.error (GoError.other "json: cannot unmarshal into Go value of type bool")

/-- An environment over these. -/
def sampleEnv : Env Sample Bool :=
  { requestBodyParseErrorCode := "J0003",
    requestURLNotFoundErrorCode := "J0001",
    jsonMarshal := sampleMarshal,
    jsonUnmarshal := sampleUnmarshal,
    readAllNil := false,
    runtimeCaller := fun _ => some (bytesOf "/go/src/app/handler.go", 42) }

/-- A transport stream delivering `chunks` one per `Read`, then ending with
`final` (`none`: clean end of stream). -/
def sampleStream (chunks : List (List Byte)) (final : Option GoError) : Stream :=
  { script := chunks.map (fun ch => (ch, none)) ++
      (match final with
       | none => []
       | some e => [([], some e)]),
    reads := 0,
    closed := false }

/-- A request carrying `body`, with the path parameters of `params_test.go`. -/
def sampleRequest (body : Stream) : Request :=
  { Method := bytesOf "POST",
    RequestURI := bytesOf "/",
    Body := body,
    PathParams := fun key =>
      if key = bytesOf "str" then some (bytesOf "value")
      else if key = bytesOf "int" then some (bytesOf "10")
      else if key = bytesOf "neg_int" then some (bytesOf "-10")
      else none }

/-- A context right after set-up with request id 1, carrying `body`. -/
def sampleContext (body : Stream) : Context :=
  { body := none,
    bodyError := none,
    requestID := 1,
    response := { header := [], statusLines := [], writes := [], writeErr := none },
    request := sampleRequest body,
    httpStatus := 0,
    logFields := [("reqid", LogValue.num 1)],
    logged := [],
    released := [] }

/-! ## Specification-side notions -/

/-- A script that reaches a clean end of stream without delivering a byte: every
`Read` before the end delivers nothing and no error, and the stream then ends
(script used up, or `io.EOF` with no data). -/
def cleanlyEmpty : List (List Byte × Option GoError) → Bool
  | [] => true
  | (chunk, none) :: rest => chunk.isEmpty && cleanlyEmpty rest
  | (chunk, some e) :: _ => chunk.isEmpty && decide (e = GoError.EOF)

/-- The state of a context once `Body` has read the request: `r` is what that
call returned and `gone` the streams released up to and including the one it
read.  Either the cache answers, or nothing at all was read and the request
carries an empty in-memory reader. -/
def Settled {α δ : Type} (env : Env α δ) (r : Option (List Byte) × Option Error) (gone : List Stream)
    (c : Context) : Prop :=
  (c.body, c.bodyError) = r ∧ (∃ extra, c.released = gone ++ extra) ∧
    ((c.body.isSome || c.bodyError.isSome) = true ∨
      (c.request.Body = NewReader none ∧ env.readAllNil = true))

/-- What `render` leaves behind when it falls back: status 500 recorded, the
JSON content type set, one more status line (500) and one more write (the fixed
literal) on the response, nothing else added to either. -/
def FallbackWritten (c c1 : Context) : Prop :=
  c1.httpStatus = 500 ∧
  c1.response.HeaderGet "Content-Type" = some "application/json" ∧
  c1.response.statusLines = c.response.statusLines ++ [500] ∧
  c1.response.writes = c.response.writes ++
    [bytesOf "\x7b\"error\":\x7b\"code\":\"J0002\",\"message\":\"Internal server error.\"\x7d\x7d"]

/-- The byte is an ASCII decimal digit. -/
def isDecimalDigit (c : Byte) : Bool := decide (48 ≤ c.val ∧ c.val ≤ 57)

/-- The number read in base 10 from the digits `s`, continuing from `n`. -/
def decimalFrom (n : Nat) (s : List Byte) : Nat :=
  s.foldl (fun acc c => acc * 10 + (c.val - 48)) n

/-- The number a string of decimal digits denotes. -/
def decimalValue (s : List Byte) : Nat := decimalFrom 0 s

/-- The byte of the decimal digit `d`. -/
def digitByte (d : Nat) : Byte := Fin.ofNat (48 + d)

/-- The string `ds` is the decimal numeral of `n`: digits only, at least one, no
leading zero unless it is the numeral `0`, with value `n`. -/
def IsNumeralOf (ds : List Byte) (n : Nat) : Prop :=
  ds ≠ [] ∧ (∀ c ∈ ds, isDecimalDigit c = true) ∧ (ds.head? = some 48 → ds = [48]) ∧
    decimalValue ds = n

/-- An arrival for examples: a zero-valued context, an empty request, a handler
that renders a text, one and a half milliseconds of work. -/
def sampleArrival : Arrival :=
  { c := { sampleContext (sampleStream [] none) with requestID := 0, logFields := [] },
    rw := { header := [], statusLines := [], writes := [], writeErr := none },
    req := sampleRequest (sampleStream [] none),
    next := fun c => c.Render sampleEnv (Sample.text "ok"),
    elapsed := 1500000 }

/-! ## Reading a stream to its end -/

theorem readFrom_cons_none (fuel : Nat) (chunk : List Byte)
    (rest : List (List Byte × Option GoError)) (reads : Nat) (closed : Bool) (buf : List Byte) :
    readFrom (fuel + 1) { script := (chunk, none) :: rest, reads := reads, closed := closed } buf
      = readFrom fuel { script := rest, reads := reads + 1, closed := closed } (buf ++ chunk) :=
  rfl

theorem readFrom_fuel (fuel : Nat) : ∀ (s : Stream) (buf : List Byte),
    s.script.length < fuel →
    readFrom fuel s buf = readFrom (s.script.length + 1) s buf := by
  induction fuel with
  | zero => intro s buf h; omega
  | succ fuel ih =>
    intro s buf h
    rcases s with ⟨script, reads, closed⟩
    cases script with
    | nil => simp [readFrom, Stream.Read]
    | cons r rest =>
      rcases r with ⟨chunk, e⟩
      cases e with
      | none =>
        simp only [List.length_cons] at h
        rw [readFrom_cons_none, List.length_cons, readFrom_cons_none]
        exact ih _ _ (by simpa using h)
      | some e => cases e <;> simp [readFrom, Stream.Read]

theorem readFrom_cleanlyEmpty : ∀ (script : List (List Byte × Option GoError))
    (reads : Nat) (closed : Bool) (buf : List Byte), cleanlyEmpty script = true →
    (readFrom (script.length + 1) { script := script, reads := reads, closed := closed } buf).1
      = (buf, none) := by
  intro script
  induction script with
  | nil => intro reads closed buf _; simp [readFrom, Stream.Read]
  | cons r rest ih =>
    intro reads closed buf h
    rcases r with ⟨chunk, e⟩
    cases e with
    | none =>
      simp only [cleanlyEmpty, Bool.and_eq_true, List.isEmpty_iff] at h
      rw [List.length_cons, readFrom_cons_none, ih _ _ _ h.2, h.1, List.append_nil]
    | some e =>
      simp only [cleanlyEmpty, Bool.and_eq_true, List.isEmpty_iff, decide_eq_true_eq] at h
      rw [h.1, h.2]
      simp [readFrom, Stream.Read]

/-- An error returned by the read loop is one the stream itself delivered, and
it is never `io.EOF`: with fuel for one `Read` more than the script has entries,
the loop always ends on its own. -/
theorem readFrom_error : ∀ (script : List (List Byte × Option GoError))
    (reads : Nat) (closed : Bool) (buf : List Byte) (e : GoError),
    (readFrom (script.length + 1) { script := script, reads := reads, closed := closed } buf).1.2
      = some e →
    e ≠ GoError.EOF ∧ ∃ chunk, (chunk, some e) ∈ script := by
  intro script
  induction script with
  | nil => intro reads closed buf e h; simp [readFrom, Stream.Read] at h
  | cons r rest ih =>
    intro reads closed buf e h
    rcases r with ⟨chunk, err⟩
    cases err with
    | none =>
      rw [List.length_cons, readFrom_cons_none] at h
      obtain ⟨hne, c1, hc1⟩ := ih _ _ _ e h
      exact ⟨hne, c1, List.mem_cons_of_mem _ hc1⟩
    | some e0 =>
      cases e0 with
      | EOF => simp [readFrom, Stream.Read] at h
      | other msg =>
        simp only [readFrom, Stream.Read, List.length_cons, Option.some.injEq] at h
        subst h
        exact ⟨by simp, chunk, List.mem_cons_self _ _⟩

theorem ReadAll_cleanlyEmpty (b : Bool) (s : Stream) (h : cleanlyEmpty s.script = true) :
    (ReadAll b s).1 = (mkSlice b [], none) := by
  rcases s with ⟨script, reads, closed⟩
  have h1 := readFrom_cleanlyEmpty script reads closed [] h
  unfold ReadAll
  simp only at h1 ⊢
  generalize readFrom (script.length + 1) _ [] = r at h1 ⊢
  rcases r with ⟨⟨data, err⟩, s1⟩
  simp only [Prod.mk.injEq] at h1
  simp [h1.1, h1.2]

theorem ReadAll_NewReader (b : Bool) (body : Option (List Byte)) :
    (ReadAll b (NewReader body)).1 = (mkSlice b (sliceBytes body), none) := by
  cases body with
  | none => simp [ReadAll, NewReader, readFrom, Stream.Read, sliceBytes]
  | some l =>
    cases l with
    | nil => simp [ReadAll, NewReader, readFrom, Stream.Read, sliceBytes]
    | cons x xs => simp [ReadAll, NewReader, readFrom, Stream.Read, sliceBytes]

theorem sliceBytes_mkSlice (b : Bool) (data : List Byte) :
    sliceBytes (mkSlice b data) = data := by
  unfold mkSlice sliceBytes
  cases b <;> cases data <;> simp

theorem ReadAll_fst_none (b : Bool) (s : Stream) (h : (ReadAll b s).1.1 = none) : b = true := by
  unfold ReadAll at h
  generalize readFrom (s.script.length + 1) s [] = r at h
  rcases r with ⟨⟨data, err⟩, s1⟩
  cases b with
  | true => rfl
  | false => simp [mkSlice] at h

/-! ## Body: the cache -/

section BodyCache

variable {α δ : Type}

theorem Body_cached (env : Env α δ) (c : Context)
    (h : (c.body.isSome || c.bodyError.isSome) = true) :
    c.Body env = ((c.body, c.bodyError), c) := by
  unfold Context.Body
  rw [if_pos h]

theorem bodyTimes_cached (env : Env α δ) (c : Context)
    (h : (c.body.isSome || c.bodyError.isSome) = true) (n : Nat) :
    c.bodyTimes env n = c := by
  induction n with
  | zero => rfl
  | succ n ih => rw [Context.bodyTimes, Body_cached env c h]; exact ih

theorem Settled.step (env : Env α δ) {r : Option (List Byte) × Option Error}
    {gone : List Stream} {c : Context} (h : Settled env r gone c) :
    (c.Body env).1 = r ∧ Settled env r gone (c.Body env).2 := by
  obtain ⟨hr, ⟨extra, hrel⟩, hcase⟩ := h
  by_cases hc : (c.body.isSome || c.bodyError.isSome) = true
  · rw [Body_cached env c hc]
    exact ⟨hr, hr, ⟨extra, hrel⟩, Or.inl hc⟩
  · rcases hcase with hcase | ⟨hbody, hnil⟩
    · exact absurd hcase hc
    · have hb : c.body = none := by
        cases hcb : c.body with
        | none => rfl
        | some x => simp [hcb] at hc
      have he : c.bodyError = none := by
        cases hce : c.bodyError with
        | none => rfl
        | some x => simp [hce] at hc
      have hread := ReadAll_NewReader env.readAllNil none
      rw [hnil] at hread
      unfold Context.Body
      rw [if_neg hc, hbody, hnil]
      generalize ReadAll true (NewReader none) = ra at hread
      rcases ra with ⟨⟨body, err⟩, drained⟩
      simp only [mkSlice, sliceBytes, Option.getD_none, List.isEmpty_nil, Bool.and_self,
        if_true, Prod.mk.injEq] at hread
      obtain ⟨rfl, rfl⟩ := hread
      simp only [he]
      refine ⟨?_, ?_, ⟨extra ++ [drained.Close], ?_⟩, Or.inr ⟨rfl, hnil⟩⟩
      · rw [← hr, hb, he]
      · rw [← hr, hb, he]
      · simp [hrel]

theorem Settled.iterate (env : Env α δ) {r : Option (List Byte) × Option Error}
    {gone : List Stream} (n : Nat) : ∀ {c : Context}, Settled env r gone c →
    Settled env r gone (c.bodyTimes env n) := by
  induction n with
  | zero => intro c h; exact h
  | succ n ih => intro c h; exact ih (Settled.step env h).2

theorem Settled.streams (env : Env α δ) {r : Option (List Byte) × Option Error}
    {pre : List Stream} {d : Stream} {c : Context} (h : Settled env r (pre ++ [d]) c) :
    c.streams[pre.length]? = some d := by
  obtain ⟨_, ⟨extra, hrel⟩, _⟩ := h
  unfold Context.streams
  rw [hrel, List.append_assoc, List.append_assoc, List.getElem?_append_right (le_refl _)]
  simp

/-- The first call on a context with nothing cached: the context afterwards is
settled, with the request's stream drained, closed and released. -/
theorem Body_fresh (env : Env α δ) (c : Context) (hb : c.body = none)
    (he : c.bodyError = none) :
    Settled env (c.Body env).1
      (c.released ++ [(ReadAll env.readAllNil c.request.Body).2.Close]) (c.Body env).2 := by
  have hc : ¬ (c.body.isSome || c.bodyError.isSome) = true := by simp [hb, he]
  have hnone := ReadAll_fst_none env.readAllNil c.request.Body
  unfold Context.Body
  rw [if_neg hc]
  generalize ReadAll env.readAllNil c.request.Body = ra at hnone
  rcases ra with ⟨⟨body, err⟩, drained⟩
  simp only at hnone ⊢
  refine ⟨rfl, ⟨[], by simp⟩, ?_⟩
  cases body with
  | some x => left; simp
  | none =>
    have hnil := hnone rfl
    cases err with
    | none => right; simp [he, hnil]
    | some e =>
      by_cases hE : e = GoError.EOF
      · right; simp [hE, he, hnil]
      · left; simp [hE]

/-- Every call of `Body`, however many came before it, returns what the first
one returned and leaves the stream the first one found attached as the first
one left it. -/
theorem Body_again (env : Env α δ) (c : Context) (n : Nat) :
    ((c.bodyTimes env n).Body env).1 = (c.Body env).1 ∧
    ((c.bodyTimes env n).Body env).2.streams[c.released.length]?
      = (c.Body env).2.streams[c.released.length]? := by
  cases n with
  | zero => exact ⟨rfl, rfl⟩
  | succ n =>
    by_cases hc : (c.body.isSome || c.bodyError.isSome) = true
    · rw [bodyTimes_cached env c hc]
      exact ⟨rfl, rfl⟩
    · have hb : c.body = none := by
        cases hcb : c.body with
        | none => rfl
        | some x => simp [hcb] at hc
      have he : c.bodyError = none := by
        cases hce : c.bodyError with
        | none => rfl
        | some x => simp [hce] at hc
      have h1 := Body_fresh env c hb he
      have hn := Settled.step env (Settled.iterate env n h1)
      refine ⟨hn.1, ?_⟩
      rw [Context.bodyTimes, Settled.streams env hn.2, Settled.streams env h1]

end BodyCache

/-! ## Claims about Body and ParseBody -/

section BodyClaims

variable {α δ : Type}

/-- C1: every call of `Body` after the first (the `n + 2`-th, for any `n`) returns
the same bytes and the same error as the first call, and the stream that was
attached to the request when the first call was made is, after any later call,
exactly what the first call left: no later call reads it. -/
theorem C1_Body_repeatable (env : Env α δ) (c : Context) (n : Nat) :
    ((c.bodyTimes env (n + 1)).Body env).1 = (c.Body env).1 ∧
    c.streams[c.released.length]? = some c.request.Body ∧
    ((c.bodyTimes env (n + 1)).Body env).2.streams[c.released.length]?
      = (c.Body env).2.streams[c.released.length]? := by
  refine ⟨(Body_again env c (n + 1)).1, ?_, (Body_again env c (n + 1)).2⟩
  unfold Context.streams
  simp

/-- C2: when nothing is cached yet and the request stream ends cleanly without
delivering a byte, the first call of `Body` (`n = 0`) and every later one return
an empty byte sequence and no error. -/
theorem C2_Body_empty (env : Env α δ) (c : Context) (n : Nat)
    (hb : c.body = none) (he : c.bodyError = none)
    (hs : cleanlyEmpty c.request.Body.script = true) :
    sliceBytes ((c.bodyTimes env n).Body env).1.1 = [] ∧
    ((c.bodyTimes env n).Body env).1.2 = none := by
  rw [(Body_again env c n).1]
  have hc : ¬ (c.body.isSome || c.bodyError.isSome) = true := by simp [hb, he]
  have hread := ReadAll_cleanlyEmpty env.readAllNil c.request.Body hs
  unfold Context.Body
  rw [if_neg hc]
  generalize ReadAll env.readAllNil c.request.Body = ra at hread
  rcases ra with ⟨⟨body, err⟩, drained⟩
  simp only [Prod.mk.injEq] at hread
  obtain ⟨rfl, rfl⟩ := hread
  exact ⟨sliceBytes_mkSlice _ _, he⟩

theorem C2_Body_empty_witness :
    cleanlyEmpty (sampleContext (sampleStream [[]] (some GoError.EOF))).request.Body.script = true ∧
    sliceBytes (((sampleContext (sampleStream [[]] (some GoError.EOF))).bodyTimes
      sampleEnv 2).Body sampleEnv).1.1 = [] ∧
    (((sampleContext (sampleStream [[]] (some GoError.EOF))).bodyTimes
      sampleEnv 2).Body sampleEnv).1.2 = none :=
  ⟨by decide,
    C2_Body_empty sampleEnv (sampleContext (sampleStream [[]] (some GoError.EOF))) 2 rfl rfl
      (by decide)⟩

/-- C9: after the first call of `Body` (nothing cached before it), whatever the
read gave, the stream that was attached has been closed and released, and the
request carries a fresh stream (no `Read` served, not closed) which, read to
its end, delivers exactly the bytes `Body` returned, without an error. -/
theorem C9_Body_replaces_stream (env : Env α δ) (c : Context) (nilWhenEmpty : Bool)
    (hb : c.body = none) (he : c.bodyError = none) :
    (c.Body env).2.released
      = c.released ++ [(ReadAll env.readAllNil c.request.Body).2.Close] ∧
    ((ReadAll env.readAllNil c.request.Body).2.Close).closed = true ∧
    (c.Body env).2.request.Body.reads = 0 ∧
    (c.Body env).2.request.Body.closed = false ∧
    sliceBytes (ReadAll nilWhenEmpty (c.Body env).2.request.Body).1.1
      = sliceBytes (c.Body env).1.1 ∧
    (ReadAll nilWhenEmpty (c.Body env).2.request.Body).1.2 = none := by
  have hc : ¬ (c.body.isSome || c.bodyError.isSome) = true := by simp [hb, he]
  unfold Context.Body
  rw [if_neg hc]
  generalize ReadAll env.readAllNil c.request.Body = ra
  rcases ra with ⟨⟨body, err⟩, drained⟩
  refine ⟨rfl, rfl, rfl, rfl, ?_, ?_⟩
  · simp only [ReadAll_NewReader, sliceBytes_mkSlice]
  · simp only [ReadAll_NewReader]

theorem C9_Body_replaces_stream_witness :
    (sampleContext (sampleStream [bytesOf "tr", bytesOf "ue"]
      (some (GoError.other "connection reset")))).body = none ∧
    ((sampleContext (sampleStream [bytesOf "tr", bytesOf "ue"]
      (some (GoError.other "connection reset")))).Body sampleEnv).2.released
      = [{ script := [], reads := 3, closed := true }] ∧
    sliceBytes (ReadAll false ((sampleContext (sampleStream [bytesOf "tr", bytesOf "ue"]
      (some (GoError.other "connection reset")))).Body sampleEnv).2.request.Body).1.1
      = bytesOf "true" :=
  ⟨rfl,
    (C9_Body_replaces_stream sampleEnv (sampleContext (sampleStream [bytesOf "tr", bytesOf "ue"]
      (some (GoError.other "connection reset")))) false rfl rfl).1,
    (C9_Body_replaces_stream sampleEnv (sampleContext (sampleStream [bytesOf "tr", bytesOf "ue"]
      (some (GoError.other "connection reset")))) false rfl rfl).2.2.2.2.1⟩

/-- C4: `ParseBody` returns the error of `Body` when `Body` fails, decoding
nothing; otherwise it leaves the context as `Body` left it and returns no error
exactly when decoding the cached bytes succeeds, and when decoding fails it
returns an Error carrying the body-parse code, status 400 and the decode error
as its cause. -/
theorem C4_ParseBody (env : Env α δ) (c : Context) :
    (c.ParseBody env).2 = (c.Body env).2 ∧
    (∀ e, (c.Body env).1.2 = some e →
      (c.ParseBody env).1 = (some e, none)) ∧
    ((c.Body env).1.2 = none →
      ((c.Body env).2.body = (c.Body env).1.1) ∧
      ((c.ParseBody env).1.1 = none ↔
        ∃ d, env.jsonUnmarshal (sliceBytes (c.Body env).1.1) = Except.ok d) ∧
      (∀ d, env.jsonUnmarshal (sliceBytes (c.Body env).1.1) = Except.ok d →
        (c.ParseBody env).1 = (none, some d)) ∧
      (∀ derr, env.jsonUnmarshal (sliceBytes (c.Body env).1.1) = Except.error derr →
        ∃ e, (c.ParseBody env).1 = (some e, none) ∧
          e = NewError env.requestBodyParseErrorCode "Cannot parse the request body as JSON."
            StatusBadRequest (some derr) ∧
          e.Code = env.requestBodyParseErrorCode ∧ e.Status = 400 ∧ e.Err = some derr)) := by
  have hcache : (c.Body env).2.body = (c.Body env).1.1 := by
    unfold Context.Body
    split
    · rfl
    · rfl
  unfold Context.ParseBody
  generalize c.Body env = rb at hcache
  rcases rb with ⟨⟨body, berr⟩, c1⟩
  cases berr with
  | some e0 => simp
  | none =>
    refine ⟨?_, by simp, fun _ => ⟨hcache, ?_⟩⟩
    · cases hu : env.jsonUnmarshal (sliceBytes body) <;> simp [hu]
    · cases hu : env.jsonUnmarshal (sliceBytes body) with
      | error derr => simp [hu, NewError, StatusBadRequest]
      | ok d => simp [hu]

end BodyClaims

theorem C4_ParseBody_witness :
    ((sampleContext (sampleStream [bytesOf "broken!"] none)).Body sampleEnv).1.2 = none ∧
    sampleEnv.jsonUnmarshal
      (sliceBytes ((sampleContext (sampleStream [bytesOf "broken!"] none)).Body sampleEnv).1.1)
      = Except.error (GoError.other "json: cannot unmarshal into Go value of type bool") ∧
    ∃ e, ((sampleContext (sampleStream [bytesOf "broken!"] none)).ParseBody sampleEnv).1
        = (some e, none) ∧
      e = NewError "J0003" "Cannot parse the request body as JSON." 400
        (some (GoError.other "json: cannot unmarshal into Go value of type bool")) ∧
      e.Code = "J0003" ∧ e.Status = 400 ∧
      e.Err = some (GoError.other "json: cannot unmarshal into Go value of type bool") :=
  ⟨by decide, rfl,
    ((C4_ParseBody sampleEnv (sampleContext (sampleStream [bytesOf "broken!"] none))).2.2
      (by decide)).2.2.2 _ rfl⟩

/-! ## Claims about rendering -/

section RenderClaims

variable {α δ : Type}

theorem render_error (env : Env α δ) (c : Context) (status : Int) (v : Payload α)
    (err : GoError) (h : env.jsonMarshal v = Except.error err) :
    FallbackWritten c (c.render env status v) := by
  unfold Context.render
  simp only [h]
  refine ⟨rfl, ?_, rfl, rfl⟩
  simp [ResponseWriter.Write, ResponseWriter.WriteHeader, ResponseWriter.HeaderSet,
    ResponseWriter.HeaderGet, Context.emit]

theorem render_httpStatus (env : Env α δ) (c : Context) (status : Int) (v : Payload α) :
    (c.render env status v).httpStatus
      = (match env.jsonMarshal v with
         | Except.ok _ => status
         | Except.error _ => 500) ∧
    (c.render env status v).response.statusLines
      = c.response.statusLines ++ [(c.render env status v).httpStatus] := by
  unfold Context.render
  cases hm : env.jsonMarshal v with
  | error err => exact ⟨rfl, rfl⟩
  | ok data =>
    cases hw : c.response.writeErr <;>
      simp [ResponseWriter.Write, ResponseWriter.HeaderSet, ResponseWriter.WriteHeader, hw,
        Context.emit]

theorem render_ok (env : Env α δ) (c : Context) (status : Int) (v : Payload α)
    (data : List Byte) (h : env.jsonMarshal v = Except.ok data) :
    (c.render env status v).httpStatus = status ∧
    (c.render env status v).response.HeaderGet "Content-Type" = some "application/json" ∧
    (c.render env status v).response.statusLines = c.response.statusLines ++ [status] ∧
    (c.render env status v).response.writes = c.response.writes ++ [data] := by
  unfold Context.render
  simp only [h]
  cases hw : c.response.writeErr <;>
    simp [ResponseWriter.Write, ResponseWriter.HeaderSet, ResponseWriter.WriteHeader,
      ResponseWriter.HeaderGet, hw, Context.emit]

theorem render_frame (env : Env α δ) (c : Context) (status : Int) (v : Payload α) :
    (c.render env status v).bodyError = c.bodyError ∧
    (c.render env status v).requestID = c.requestID := by
  unfold Context.render
  cases hm : env.jsonMarshal v with
  | error err => exact ⟨rfl, rfl⟩
  | ok data =>
    cases hw : c.response.writeErr <;>
      simp [ResponseWriter.Write, ResponseWriter.HeaderSet, ResponseWriter.WriteHeader, hw,
        Context.emit]

/-- C3: when marshalling `v` fails, `render` records status 500, sets the content
type to `application/json`, and adds to the response exactly one status line,
500, and exactly one write, the fixed internal-error literal; the same holds
for `Render` and `RenderRaw`, which pass their value to `render`. -/
theorem C3_render_fallback (env : Env α δ) (c : Context) (status : Int) (v : Payload α)
    (err : GoError) (h : env.jsonMarshal v = Except.error err) :
    FallbackWritten c (c.render env status v) ∧
    (∀ u, v = Payload.value u →
      FallbackWritten c (c.Render env u) ∧ FallbackWritten c (c.RenderRaw env status u)) := by
  refine ⟨render_error env c status v err h, ?_⟩
  intro u hu
  subst hu
  exact ⟨render_error env c StatusOK _ err h, render_error env c status _ err h⟩

theorem C3_render_fallback_witness :
    sampleEnv.jsonMarshal (Payload.value Sample.channel)
      = Except.error (GoError.other "json: unsupported type: chan int") ∧
    FallbackWritten (sampleContext (sampleStream [] none))
      ((sampleContext (sampleStream [] none)).render sampleEnv 299
        (Payload.value Sample.channel)) ∧
    ((sampleContext (sampleStream [] none)).RenderRaw sampleEnv 299
      Sample.channel).response.statusLines = [500] :=
  ⟨rfl,
    (C3_render_fallback sampleEnv (sampleContext (sampleStream [] none)) 299
      (Payload.value Sample.channel) _ rfl).1,
    ((C3_render_fallback sampleEnv (sampleContext (sampleStream [] none)) 299
      (Payload.value Sample.channel) _ rfl).2 Sample.channel rfl).2.2.2.1⟩

/-- C5: `RenderError`, given a pointer to the Error `e` (the one the context has
cached, or any other), stamps the context's request id on it, so the stamped id
is what `RequestID` returns for that context before and after the call, changes
nothing else of the error, writes the stamp through the pointer, and renders the
envelope of the stamped error with the error's declared status: when the
envelope marshals, `httpStatus` becomes that status and the response gets the
JSON content type, that status line and the marshalled envelope as its one
write; when it does not, the response gets the fallback of `render`. -/
theorem C5_RenderError (env : Env α δ) (c : Context) (p : ErrorPtr) (e : Error)
    (hp : c.load p = some e) :
    ∃ c1, c.RenderError env p = some (e.SetRequestID c.requestID, c1) ∧
      (e.SetRequestID c.requestID).RequestID = some c.RequestID ∧
      c1.RequestID = c.RequestID ∧
      (e.SetRequestID c.requestID).Code = e.Code ∧
      (e.SetRequestID c.requestID).Message = e.Message ∧
      (e.SetRequestID c.requestID).Status = e.Status ∧
      (e.SetRequestID c.requestID).Err = e.Err ∧
      (p = ErrorPtr.cached → c1.bodyError = some (e.SetRequestID c.requestID)) ∧
      (p ≠ ErrorPtr.cached → c1.bodyError = c.bodyError) ∧
      (∀ data, env.jsonMarshal (Payload.errorEnvelope (e.SetRequestID c.requestID))
          = Except.ok data →
        c1.httpStatus = e.Status ∧
        c1.response.HeaderGet "Content-Type" = some "application/json" ∧
        c1.response.statusLines = c.response.statusLines ++ [e.Status] ∧
        c1.response.writes = c.response.writes ++ [data]) ∧
      (∀ err, env.jsonMarshal (Payload.errorEnvelope (e.SetRequestID c.requestID))
          = Except.error err →
        FallbackWritten c c1) := by
  have hresp : (c.store p (e.SetRequestID c.requestID)).response = c.response := by
    cases p <;> rfl
  have hid : (c.store p (e.SetRequestID c.requestID)).requestID = c.requestID := by
    cases p <;> rfl
  have hframe := render_frame env (c.store p (e.SetRequestID c.requestID)) e.Status
    (Payload.errorEnvelope (e.SetRequestID c.requestID))
  refine ⟨(c.store p (e.SetRequestID c.requestID)).render env e.Status
    (Payload.errorEnvelope (e.SetRequestID c.requestID)), ?_, rfl, ?_, rfl, rfl, rfl, rfl,
    ?_, ?_, ?_, ?_⟩
  · unfold Context.RenderError
    rw [hp]
    rfl
  · unfold Context.RequestID
    rw [hframe.2, hid]
  · intro hc
    subst hc
    rw [hframe.1]
    rfl
  · intro hc
    rw [hframe.1]
    cases p with
    | cached => exact absurd rfl hc
    | fresh e0 => rfl
  · intro data hd
    have h := render_ok env (c.store p (e.SetRequestID c.requestID)) e.Status _ data hd
    rw [hresp] at h
    exact h
  · intro err hd
    have h := render_error env (c.store p (e.SetRequestID c.requestID)) e.Status _ err hd
    unfold FallbackWritten at h ⊢
    rw [hresp] at h
    exact h

/-- A request whose body breaks off after four bytes, handled as in
`context_test.go`: `ParseBody` returns the read error `Body` cached, the handler
passes that pointer to `RenderError`, and the 400 response carries request id
1, as does the error `Body` returns from then on. -/
theorem C5_RenderError_witness :
    (((sampleContext (sampleStream [bytesOf "tr", bytesOf "ue"]
      (some (GoError.other "connection reset")))).ParseBody sampleEnv).1.1
      = some (NewError "J0003" "Cannot read the request body" 400
          (some (GoError.other "connection reset")))) ∧
    (((sampleContext (sampleStream [bytesOf "tr", bytesOf "ue"]
      (some (GoError.other "connection reset")))).ParseBody sampleEnv).2.load ErrorPtr.cached
      = some (NewError "J0003" "Cannot read the request body" 400
          (some (GoError.other "connection reset")))) ∧
    ∃ c1, ((sampleContext (sampleStream [bytesOf "tr", bytesOf "ue"]
        (some (GoError.other "connection reset")))).ParseBody sampleEnv).2.RenderError sampleEnv
        ErrorPtr.cached
        = some ((NewError "J0003" "Cannot read the request body" 400
            (some (GoError.other "connection reset"))).SetRequestID 1, c1) ∧
      c1.httpStatus = 400 ∧
      c1.response.statusLines = [400] ∧
      c1.response.writes = [bytesOf
        "\x7b\"error\":\x7b\"code\":\"J0003\",\"message\":\"Cannot read the request body\",\"request_id\":\"1\"\x7d\x7d"] ∧
      (c1.Body sampleEnv).1.2 = some ((NewError "J0003" "Cannot read the request body" 400
        (some (GoError.other "connection reset"))).SetRequestID 1) ∧
      ((NewError "J0003" "Cannot read the request body" 400
        (some (GoError.other "connection reset"))).SetRequestID 1).RequestID = some 1 := by
  refine ⟨by decide, by decide, ?_⟩
  obtain ⟨c1, h1, _, _, _, _, _, _, hb, _, hok, _⟩ :=
    C5_RenderError sampleEnv ((sampleContext (sampleStream [bytesOf "tr", bytesOf "ue"]
      (some (GoError.other "connection reset")))).ParseBody sampleEnv).2 ErrorPtr.cached
      (NewError "J0003" "Cannot read the request body" 400
        (some (GoError.other "connection reset"))) (by decide)
  obtain ⟨hs, _, hl, hw⟩ := hok _ rfl
  refine ⟨c1, h1, hs, hl, hw, ?_, rfl⟩
  rw [Body_cached sampleEnv c1 (by rw [hb rfl]; simp), hb rfl]
  rfl

/-- C7, as the code has it: right after `render(status, v)` returns, at the end of
any sequence of calls on the context, `httpStatus` is the status line that call
wrote, which is `status` when `v` marshals and 500 when it does not. -/
theorem C7_httpStatus_after_render (env : Env α δ) (c : Context) (ops : List (Op α))
    (status : Int) (v : Payload α) :
    ((c.run env ops).render env status v).httpStatus
      = (match env.jsonMarshal v with
         | Except.ok _ => status
         | Except.error _ => 500) ∧
    ((c.run env ops).render env status v).response.statusLines.getLast?
      = some ((c.run env ops).render env status v).httpStatus := by
  refine ⟨(render_httpStatus env _ status v).1, ?_⟩
  rw [(render_httpStatus env _ status v).2]
  simp

/-- C7 fails as stated: `RenderRaw(299, v)` with a value that does not marshal
leaves `httpStatus` at 500, not at the 299 of the call. -/
theorem C7_counterexample :
    ((sampleContext (sampleStream [] none)).RenderRaw sampleEnv 299 Sample.channel).httpStatus
      = 500 ∧
    ((sampleContext (sampleStream [] none)).RenderRaw sampleEnv 299 Sample.channel).httpStatus
      ≠ 299 := by
  decide

end RenderClaims

/-! ## Path parameters: the integer parser -/

theorem decimalFrom_le (s : List Byte) : ∀ n, n ≤ decimalFrom n s := by
  induction s with
  | nil => intro n; exact le_refl n
  | cons c cs ih =>
    intro n
    have h := ih (n * 10 + (c.val - 48))
    simp only [decimalFrom, List.foldl_cons] at h ⊢
    omega

theorem parseUintLoop_nondigit (c : Byte) (cs : List Byte) (n : Nat)
    (h : isDecimalDigit c = false) :
    parseUintLoop 10 1844674407370955162 9223372036854775807 (c :: cs) n = (0, some ErrSyntax) := by
  simp only [isDecimalDigit, decide_eq_false_iff_not] at h
  unfold parseUintLoop
  simp only [if_neg h]
  by_cases h2 : 97 ≤ lower c.val ∧ lower c.val ≤ 122
  · have h3 : 10 ≤ lower c.val - 97 + 10 := by omega
    simp only [if_pos h2, if_pos h3]
  · simp only [if_neg h2]

theorem parseUintLoop_digit (c : Byte) (cs : List Byte) (n : Nat)
    (h : isDecimalDigit c = true) :
    parseUintLoop 10 1844674407370955162 9223372036854775807 (c :: cs) n =
      if n * 10 + (c.val - 48) ≤ 9223372036854775807 then
        parseUintLoop 10 1844674407370955162 9223372036854775807 cs (n * 10 + (c.val - 48))
      else (9223372036854775807, some ErrRange) := by
  simp only [isDecimalDigit, decide_eq_true_eq] at h
  rw [parseUintLoop]
  simp only [if_pos h]
  have hd : ¬ 10 ≤ c.val - 48 := by omega
  simp only [if_neg hd]
  by_cases hc : 1844674407370955162 ≤ n
  · rw [if_pos hc, if_neg (by omega)]
  · rw [if_neg hc]
    have h0 : n * 10 % 2 ^ 64 = n * 10 := Nat.mod_eq_of_lt (by omega)
    rw [h0]
    by_cases hw : n * 10 + (c.val - 48) < 2 ^ 64
    · rw [Nat.mod_eq_of_lt hw]
      by_cases hm : n * 10 + (c.val - 48) ≤ 9223372036854775807
      · rw [if_pos hm, if_neg (by omega)]
      · rw [if_neg hm, if_pos (by omega)]
    · have hm : ¬ n * 10 + (c.val - 48) ≤ 9223372036854775807 := by omega
      have hwrap : (n * 10 + (c.val - 48)) % 2 ^ 64 < n * 10 ∨
          9223372036854775807 < (n * 10 + (c.val - 48)) % 2 ^ 64 := by
        left
        omega
      rw [if_pos hwrap, if_neg hm]


theorem parseUintLoop_ok (cs : List Byte) : ∀ n, (∀ c ∈ cs, isDecimalDigit c = true) →
    decimalFrom n cs ≤ 9223372036854775807 →
    parseUintLoop 10 1844674407370955162 9223372036854775807 cs n = (decimalFrom n cs, none) := by
  induction cs with
  | nil => intro n _ _; rfl
  | cons c cs ih =>
    intro n hd hv
    have hc := hd c (List.mem_cons_self c cs)
    have hrest : ∀ x ∈ cs, isDecimalDigit x = true := fun x hx => hd x (List.mem_cons_of_mem c hx)
    have hv1 : decimalFrom (n * 10 + (c.val - 48)) cs ≤ 9223372036854775807 := hv
    have hle := decimalFrom_le cs (n * 10 + (c.val - 48))
    rw [parseUintLoop_digit c cs n hc, if_pos (le_trans hle hv1), ih _ hrest hv1]
    rfl

theorem parseUintLoop_fail (cs : List Byte) : ∀ n,
    ¬ ((∀ c ∈ cs, isDecimalDigit c = true) ∧ decimalFrom n cs ≤ 9223372036854775807) →
    n ≤ 9223372036854775807 →
    ∃ v e, parseUintLoop 10 1844674407370955162 9223372036854775807 cs n = (v, some e) := by
  induction cs with
  | nil =>
    intro n h hn
    exact absurd ⟨fun c hc => absurd hc (List.not_mem_nil c), hn⟩ h
  | cons c cs ih =>
    intro n h hn
    cases hc : isDecimalDigit c with
    | false => exact ⟨_, _, parseUintLoop_nondigit c cs n hc⟩
    | true =>
      rw [parseUintLoop_digit c cs n hc]
      by_cases hm : n * 10 + (c.val - 48) ≤ 9223372036854775807
      · rw [if_pos hm]
        apply ih _ _ hm
        intro hcs
        apply h
        refine ⟨?_, hcs.2⟩
        intro x hx
        rcases List.mem_cons.mp hx with rfl | hx
        · exact hc
        · exact hcs.1 x hx
      · rw [if_neg hm]
        exact ⟨_, _, rfl⟩

theorem ParseUint_10_63 (s : List Byte) (hs : s ≠ []) :
    ParseUint s 10 63 = parseUintLoop 10 1844674407370955162 9223372036854775807 s 0 := by
  unfold ParseUint
  have h1 : s.isEmpty = false := by
    cases s with
    | nil => exact absurd rfl hs
    | cons x xs => rfl
  simp [h1]

/-- C6: `PathParams.Int` returns the default and no error when the key is absent;
when the key is present with string `s` it returns `(n, no error)` exactly when `s`
is a non-empty string of decimal digits whose value is `n` and `n < 2^63`, it
returns an error in every other case, and its result does not depend on the
default. -/
theorem C6_PathParams_Int (p : PathParams) (key : List Byte) (d : Nat) :
    (p.req.PathParams key = none → p.Int key d = (d, none)) ∧
    (∀ s, p.req.PathParams key = some s →
      (∀ n, p.Int key d = (n, none) ↔
        (s ≠ [] ∧ (∀ c ∈ s, isDecimalDigit c = true) ∧ decimalValue s = n ∧ n < 2 ^ 63)) ∧
      (¬ (s ≠ [] ∧ (∀ c ∈ s, isDecimalDigit c = true) ∧ decimalValue s < 2 ^ 63) →
        ∃ v e, p.Int key d = (v, some e)) ∧
      (∀ d1, p.Int key d1 = p.Int key d)) := by
  constructor
  · intro h
    simp [PathParams.Int, PathParams.RequiredString, h]
  · intro s h
    have hInt : ∀ d1, p.Int key d1 = ParseUint s 10 63 := by
      intro d1
      simp [PathParams.Int, PathParams.RequiredString, h]
    have hgood : (s ≠ [] ∧ (∀ c ∈ s, isDecimalDigit c = true) ∧ decimalValue s < 2 ^ 63) →
        p.Int key d = (decimalValue s, none) := by
      rintro ⟨hne, hdig, hval⟩
      rw [hInt, ParseUint_10_63 s hne]
      exact parseUintLoop_ok s 0 hdig (by unfold decimalValue at hval; omega)
    have hbad : ¬ (s ≠ [] ∧ (∀ c ∈ s, isDecimalDigit c = true) ∧ decimalValue s < 2 ^ 63) →
        ∃ v e, p.Int key d = (v, some e) := by
      intro hn
      rw [hInt]
      by_cases hne : s = []
      · subst hne
        exact ⟨_, _, rfl⟩
      · rw [ParseUint_10_63 s hne]
        apply parseUintLoop_fail s 0 _ (by omega)
        rintro ⟨hdig, hval⟩
        exact hn ⟨hne, hdig, by unfold decimalValue; omega⟩
    refine ⟨?_, hbad, fun d1 => by rw [hInt, hInt]⟩
    intro n
    constructor
    · intro hres
      by_cases hg : s ≠ [] ∧ (∀ c ∈ s, isDecimalDigit c = true) ∧ decimalValue s < 2 ^ 63
      · have h2 := hgood hg
        rw [hres] at h2
        have h3 : n = decimalValue s := congrArg Prod.fst h2
        exact ⟨hg.1, hg.2.1, h3.symm, by rw [h3]; exact hg.2.2⟩
      · obtain ⟨v, e, he⟩ := hbad hg
        rw [hres] at he
        exact absurd (congrArg Prod.snd he) (by simp)
    · rintro ⟨hne, hdig, hval, hlt⟩
      rw [← hval]
      exact hgood ⟨hne, hdig, by rw [hval]; exact hlt⟩

theorem C6_PathParams_Int_witness :
    (sampleRequest (sampleStream [] none)).PathParams (bytesOf "nonexistent_int") = none ∧
    PathParams.Int { req := sampleRequest (sampleStream [] none) }
      (bytesOf "nonexistent_int") 20 = (20, none) ∧
    PathParams.Int { req := sampleRequest (sampleStream [] none) } (bytesOf "int") 20
      = (10, none) ∧
    (∃ v e, PathParams.Int { req := sampleRequest (sampleStream [] none) }
      (bytesOf "neg_int") 20 = (v, some e)) :=
  ⟨by decide,
    (C6_PathParams_Int { req := sampleRequest (sampleStream [] none) }
      (bytesOf "nonexistent_int") 20).1 (by decide),
    (((C6_PathParams_Int { req := sampleRequest (sampleStream [] none) }
      (bytesOf "int") 20).2 (bytesOf "10") (by decide)).1 10).mpr
      ⟨by decide, by decide, by decide, by norm_num⟩,
    ((C6_PathParams_Int { req := sampleRequest (sampleStream [] none) }
      (bytesOf "neg_int") 20).2 (bytesOf "-10") (by decide)).2.1 (by decide)⟩

/-! ## The access log: elapsed time -/

theorem digitByte_val (d : Nat) (h : d ≤ 9) : (digitByte d).val = 48 + d := by
  unfold digitByte Fin.ofNat
  simp only
  omega

theorem decimalFrom_append (xs ys : List Byte) (n : Nat) :
    decimalFrom n (xs ++ ys) = decimalFrom (decimalFrom n xs) ys := by
  unfold decimalFrom
  rw [List.foldl_append]

theorem fmtDigits_lt (fuel u : Nat) (buf : List Byte) (h : u < 10) :
    fmtDigits fuel u buf = digitByte u :: buf := by
  cases fuel with
  | zero => rfl
  | succ fuel => rw [fmtDigits, if_neg (by omega)]; rfl

theorem fmtDigits_ge (fuel u : Nat) (buf : List Byte) (h : 10 ≤ u) :
    fmtDigits (fuel + 1) u buf = fmtDigits fuel (u / 10) (digitByte (u % 10) :: buf) := by
  rw [fmtDigits, if_pos h]
  have : u - u / 10 * 10 = u % 10 := by omega
  rw [this]
  rfl

theorem fmtDigits_spec (fuel : Nat) : ∀ (u : Nat) (buf : List Byte), u < 10 ^ (fuel + 1) →
    ∃ ds, fmtDigits fuel u buf = ds ++ buf ∧ IsNumeralOf ds u := by
  induction fuel with
  | zero =>
    intro u buf h
    have hu : u < 10 := by simpa using h
    refine ⟨[digitByte u], by rw [fmtDigits_lt 0 u buf hu]; rfl, by simp, ?_, ?_, ?_⟩
    · intro c hc
      rw [List.mem_singleton] at hc
      subst hc
      simp [isDecimalDigit, digitByte_val u (by omega)]
      omega
    · intro hh
      simpa using hh
    · simp [decimalValue, decimalFrom, digitByte_val u (by omega)]
  | succ fuel ih =>
    intro u buf h
    by_cases hu : u < 10
    · refine ⟨[digitByte u], by rw [fmtDigits_lt _ u buf hu]; rfl, by simp, ?_, ?_, ?_⟩
      · intro c hc
        rw [List.mem_singleton] at hc
        subst hc
        simp [isDecimalDigit, digitByte_val u (by omega)]
        omega
      · intro hh
        simpa using hh
      · simp [decimalValue, decimalFrom, digitByte_val u (by omega)]
    · have hge : 10 ≤ u := by omega
      have hdiv : u / 10 < 10 ^ (fuel + 1) := by
        rw [Nat.div_lt_iff_lt_mul (by norm_num)]
        calc u < 10 ^ (fuel + 1 + 1) := h
          _ = 10 ^ (fuel + 1) * 10 := by ring
      obtain ⟨ds, hds, hne, hdig, hlead, hval⟩ := ih (u / 10) (digitByte (u % 10) :: buf) hdiv
      have hmod : u % 10 ≤ 9 := by omega
      refine ⟨ds ++ [digitByte (u % 10)], ?_, by simp, ?_, ?_, ?_⟩
      · rw [fmtDigits_ge fuel u buf hge, hds]; simp
      · intro c hc
        rcases List.mem_append.mp hc with hc | hc
        · exact hdig c hc
        · rw [List.mem_singleton] at hc
          subst hc
          simp [isDecimalDigit, digitByte_val _ hmod]
          omega
      · intro hh
        exfalso
        cases ds with
        | nil => exact hne rfl
        | cons x xs =>
          have hx : (x :: xs).head? = some 48 := by simpa using hh
          have h1 := hlead hx
          rw [h1] at hval
          have : u / 10 = 0 := by rw [← hval]; rfl
          omega
      · unfold decimalValue at hval ⊢
        rw [decimalFrom_append, hval]
        simp only [decimalFrom, List.foldl_cons, List.foldl_nil, digitByte_val _ hmod]
        omega

theorem goInt_of_range (x : Int) (h0 : 0 ≤ x) (h1 : x < 2 ^ 63) : goInt x = x := by
  unfold goInt wrapSigned
  norm_num
  omega

theorem fmtInteger_nat (u wid : Nat) :
    fmtInteger (u : Int) wid
      = List.replicate (wid - (fmtDigits 19 u []).length) (48 : Byte) ++ fmtDigits 19 u [] := by
  unfold fmtInteger
  have h : ¬ ((u : Int) < 0) := by omega
  simp [h]

theorem fmtInteger_millis (m : Nat) (h : m ≤ 999) :
    fmtInteger (m : Int) 3
      = [digitByte (m / 100), digitByte (m / 10 % 10), digitByte (m % 10)] := by
  rw [fmtInteger_nat]
  by_cases h1 : m < 10
  · rw [fmtDigits_lt 19 m [] h1]
    have e1 : m / 100 = 0 := by omega
    have e2 : m / 10 % 10 = 0 := by omega
    have e3 : m % 10 = m := by omega
    rw [e1, e2, e3]
    rfl
  · have hge : 10 ≤ m := by omega
    rw [show (19 : Nat) = 18 + 1 from rfl, fmtDigits_ge 18 m [] hge]
    by_cases h2 : m / 10 < 10
    · rw [fmtDigits_lt 18 _ _ h2]
      have e1 : m / 100 = 0 := by omega
      have e2 : m / 10 % 10 = m / 10 := by omega
      rw [e1, e2]
      rfl
    · have hge2 : 10 ≤ m / 10 := by omega
      rw [show (18 : Nat) = 17 + 1 from rfl, fmtDigits_ge 17 _ _ hge2]
      have h3 : m / 10 / 10 < 10 := by omega
      rw [fmtDigits_lt 17 _ _ h3]
      have e1 : m / 10 / 10 = m / 100 := by omega
      rw [e1]
      rfl


theorem reqtime_nat (e : Nat) (h : e < 2 ^ 63) :
    reqtime (e : Int) = fmtDigits 19 (e / 1000000000) [] ++
      [(46 : Byte), digitByte (e % 1000000000 / 1000000 / 100),
        digitByte (e % 1000000000 / 1000000 / 10 % 10), digitByte (e % 1000000000 / 1000000 % 10)] := by
  have hs : goInt ((e : Int).tdiv Second) = ((e / 1000000000 : Nat) : Int) := by
    rw [Int.tdiv_eq_ediv (by omega) (by unfold Second; omega), goInt_of_range]
    · unfold Second; omega
    · unfold Second; omega
    · unfold Second; omega
  have hm : goInt (((e : Int).tmod Second).tdiv Millisecond)
      = ((e % 1000000000 / 1000000 : Nat) : Int) := by
    rw [Int.tmod_eq_emod (by omega) (by unfold Second; omega),
      Int.tdiv_eq_ediv (by unfold Second; omega) (by unfold Millisecond; omega), goInt_of_range]
    · unfold Second Millisecond; omega
    · unfold Second Millisecond; omega
    · unfold Second Millisecond; omega
  unfold reqtime sprintfReqtime
  rw [hs, hm, fmtInteger_millis _ (by omega), fmtInteger_nat]
  simp

/-- C10: for an elapsed duration of `0 ≤ elapsed < 2^63` nanoseconds, the field
`reqtime` that `setUpContext` logs is the decimal numeral of the whole seconds
`s`, a dot, and exactly three decimal digits spelling the remaining whole
milliseconds `ms ≤ 999`, with `s * 1000 + ms` the elapsed time in whole
milliseconds. -/
theorem C10_reqtime (elapsed : Int) (h0 : 0 ≤ elapsed) (h1 : elapsed < 2 ^ 63)
    (c : Context) (counter : Nat) (rw : ResponseWriter) (req : Request)
    (next : Context → Context) :
    ((c.setUpContext counter rw req next elapsed).2.logged.getLast?.map
      (fun entry => entry.data.lookup "reqtime"))
      = some (some (LogValue.text (reqtime elapsed))) ∧
    ∃ (secs : List Byte) (s ms : Nat),
      reqtime elapsed = secs ++
        [(46 : Byte), digitByte (ms / 100), digitByte (ms / 10 % 10), digitByte (ms % 10)] ∧
      IsNumeralOf secs s ∧ ms ≤ 999 ∧
      (s : Int) = elapsed / 1000000000 ∧
      (ms : Int) = elapsed % 1000000000 / 1000000 ∧
      (s : Int) * 1000 + ms = elapsed / 1000000 := by
  constructor
  · simp [Context.setUpContext, Context.emit, List.lookup]
  · obtain ⟨e, rfl⟩ := Int.eq_ofNat_of_zero_le h0
    have he : e < 2 ^ 63 := by omega
    obtain ⟨secs, hsecs, hnum⟩ := fmtDigits_spec 19 (e / 1000000000) [] (by omega)
    refine ⟨secs, e / 1000000000, e % 1000000000 / 1000000, ?_, hnum, by omega, by omega,
      by omega, by omega⟩
    rw [reqtime_nat e he, hsecs, List.append_nil]

theorem C10_reqtime_witness :
    (0 : Int) ≤ 1234567890 ∧ reqtime 1234567890 = bytesOf "1.234" ∧
    ∃ (secs : List Byte) (s ms : Nat),
      reqtime 1234567890 = secs ++
        [(46 : Byte), digitByte (ms / 100), digitByte (ms / 10 % 10), digitByte (ms % 10)] ∧
      IsNumeralOf secs s ∧ ms ≤ 999 ∧
      (s : Int) = 1234567890 / 1000000000 ∧
      (ms : Int) = 1234567890 % 1000000000 / 1000000 ∧
      (s : Int) * 1000 + ms = 1234567890 / 1000000 :=
  ⟨by decide, by decide,
    (C10_reqtime 1234567890 (by decide) (by norm_num) sampleArrival.c 0 sampleArrival.rw
      sampleArrival.req sampleArrival.next).2⟩

/-! ## Request ids -/

theorem assignedIDs_cons (counter : Nat) (a : Arrival) (rest : List Arrival) :
    assignedIDs counter (a :: rest)
      = addUint64 counter 1 :: assignedIDs (addUint64 counter 1) rest :=
  rfl

theorem assignedIDs_getElem? : ∀ (reqs : List Arrival) (counter k : Nat), k < reqs.length →
    (assignedIDs counter reqs)[k]? = some ((counter + k + 1) % 2 ^ 64) := by
  intro reqs
  induction reqs with
  | nil => intro counter k h; simp at h
  | cons a rest ih =>
    intro counter k h
    rw [assignedIDs_cons]
    cases k with
    | zero => simp [addUint64]
    | succ k =>
      rw [List.getElem?_cons_succ, ih _ k (by simpa using h)]
      unfold addUint64
      congr 1
      omega

theorem assignedIDs_increasing : ∀ (reqs : List Arrival) (counter : Nat),
    counter + reqs.length < 2 ^ 64 →
    (assignedIDs counter reqs).length = reqs.length ∧
    List.Pairwise (fun x y => x < y) (assignedIDs counter reqs) ∧
    ∀ id ∈ assignedIDs counter reqs, counter < id ∧ id ≤ counter + reqs.length := by
  intro reqs
  induction reqs with
  | nil => intro counter _; simp [assignedIDs]
  | cons a rest ih =>
    intro counter h
    rw [List.length_cons] at h
    have hadd : addUint64 counter 1 = counter + 1 := by
      unfold addUint64
      omega
    obtain ⟨hlen, hpw, hmem⟩ := ih (counter + 1) (by omega)
    rw [assignedIDs_cons, hadd]
    refine ⟨by simp [hlen], ?_, ?_⟩
    · rw [List.pairwise_cons]
      exact ⟨fun id hid => (hmem id hid).1, hpw⟩
    · intro id hid
      rcases List.mem_cons.mp hid with rfl | hid
      · simp
      · have := hmem id hid
        simp only [List.length_cons]
        omega

/-- C8, as the code has it: for fewer than `2^64` set-ups starting from a fresh
counter, every set-up is assigned an id, each id is strictly greater than all
ids assigned before it, so the ids are pairwise distinct, and all are at least
1. -/
theorem C8_request_ids (reqs : List Arrival) (h : reqs.length < 2 ^ 64) :
    (assignedIDs 0 reqs).length = reqs.length ∧
    List.Pairwise (fun x y => x < y) (assignedIDs 0 reqs) ∧
    (assignedIDs 0 reqs).Nodup ∧
    ∀ id ∈ assignedIDs 0 reqs, 1 ≤ id := by
  obtain ⟨hlen, hpw, hmem⟩ := assignedIDs_increasing reqs 0 (by omega)
  refine ⟨hlen, hpw, ?_, fun id hid => (hmem id hid).1⟩
  exact hpw.imp (fun hxy => Nat.ne_of_lt hxy)

theorem C8_request_ids_witness :
    [sampleArrival, sampleArrival, sampleArrival].length < 2 ^ 64 ∧
    assignedIDs 0 [sampleArrival, sampleArrival, sampleArrival] = [1, 2, 3] ∧
    (assignedIDs 0 [sampleArrival, sampleArrival, sampleArrival]).Nodup :=
  ⟨by norm_num, by decide,
    (C8_request_ids [sampleArrival, sampleArrival, sampleArrival] (by norm_num)).2.2.1⟩

/-- C8 fails as stated: the counter is a `uint64`, and of `2^64` set-ups in a row
the last one is assigned id 0, which is neither at least 1 nor greater than
the id 1 assigned to the first. -/
theorem C8_counterexample :
    (assignedIDs 0 (List.replicate (2 ^ 64) sampleArrival))[2 ^ 64 - 1]? = some 0 ∧
    (assignedIDs 0 (List.replicate (2 ^ 64) sampleArrival))[0]? = some 1 ∧
    ¬ (∀ id ∈ assignedIDs 0 (List.replicate (2 ^ 64) sampleArrival), 1 ≤ id) := by
  have hlast := assignedIDs_getElem? (List.replicate (2 ^ 64) sampleArrival) 0 (2 ^ 64 - 1)
    (by rw [List.length_replicate]; norm_num)
  have hfirst := assignedIDs_getElem? (List.replicate (2 ^ 64) sampleArrival) 0 0
    (by rw [List.length_replicate]; norm_num)
  have e1 : (0 + (2 ^ 64 - 1) + 1) % 2 ^ 64 = 0 := by norm_num
  have e2 : (0 + 0 + 1) % 2 ^ 64 = 1 := by norm_num
  rw [e1] at hlast
  rw [e2] at hfirst
  refine ⟨hlast, hfirst, ?_⟩
  intro hall
  have := hall 0 (List.getElem?_mem hlast)
  omega

end Jasco
